import Mathlib

/-!
Shallow embedding of the matrix-relay-bot core (src/main.rs): invite-join
retry loop, room discovery, routing-table construction, and the message
relay handler. External collaborators (the matrix client, the directory
search endpoint, member lookup) are passed in as function parameters;
panics (Rust `unwrap`) are modelled by an `Option` result where `none`
means the function panicked before returning.
-/

namespace RelayBot

/-- A room member as seen through `tx_room.get_member`: an optional display
name and the raw user id (`member.user_id().as_str()`). -/
structure Member where
  displayName : Option String
  userId : String
deriving DecidableEq, Repr

/-- The matrix-sdk `Room` enum variants: `Room::Joined`, `Room::Invited`,
`Room::Left`. -/
inductive RoomState
  | joined
  | invited
  | left
deriving DecidableEq, Repr

/-- A room handle: its id together with the enum variant it is wrapped in. -/
structure Room where
  roomId : String
  state : RoomState
deriving DecidableEq, Repr

/-- `member.display_name().unwrap_or_else(|| member.user_id().as_str())`:
the display name with the raw user id as fallback. -/
def resolvedName (m : Member) : String :=
  m.displayName.getD m.userId

/-- `BTreeMap::insert`: replace the binding of the key if present,
otherwise append it. -/
def mapInsert (k : String) (v : Room) : List (String × Room) → List (String × Room)
  | [] => [(k, v)]
  | (k1, v1) :: rest =>
    if k1 = k then (k, v) :: rest else (k1, v1) :: mapInsert k v rest

/-- `BTreeMap::get`. -/
def mapGet (k : String) : List (String × Room) → Option Room
  | [] => none
  | (k1, v1) :: rest => if k1 = k then some v1 else mapGet k rest

/-- `BTreeMap::contains_key`. -/
def mapContains (k : String) (m : List (String × Room)) : Bool :=
  (mapGet k m).isSome

/-- The `msgtype` of a room-message event: `MessageType::Text` carrying the
body, or any other message type (not destructured by the handler). -/
inductive MessageType
  | text (body : String)
  | other
deriving DecidableEq, Repr

/-- The fields of `OriginalSyncRoomMessageEvent` the handler reads. -/
structure MessageEvent where
  msgtype : MessageType
  sender : String
deriving DecidableEq, Repr

/-- An outbound `room.send(...)` call, tagged by the call site inside
`on_room_message`: `commandSend` is the reply sent back into the origin
room on the command path, `relaySend` is the forward into the counterpart
room on the plain relay path. -/
inductive SendEvent
  | commandSend (roomId : String) (body : String)
  | relaySend (roomId : String) (body : String)
deriving DecidableEq, Repr

/-- `msg_body.starts_with("!")`: the first character is the bang. -/
def startsWithBang (s : String) : Bool :=
  match s.data with
  | [] => false
  | c :: _ => c = '!'

/-- `&msg_body[1..]` for a body whose first byte is the one-byte "!". -/
def dropBang (s : String) : String :=
  ⟨s.data.drop 1⟩

/-- The `on_room_message` handler. `getMember` stands for
`tx_room.get_member(&sender)` followed by the two unwraps: `none` makes the
handler panic. The result is the list of outbound sends the invocation
performed, or `none` if it panicked. -/
def on_room_message (getMember : String → Option Member) (event : MessageEvent)
    (room : Room) (two_way_map : List (String × Room)) (username : String) :
    Option (List SendEvent) :=
  if mapContains room.roomId two_way_map = false then some []
  else
    match room.state with
    | RoomState.joined =>
      match event.msgtype with
      | MessageType.text msg_body =>
        match getMember event.sender with
        | none => none
        | some member =>
          let name := resolvedName member
          if name ≠ username then
            if startsWithBang msg_body then
              let command := dropBang msg_body
              let content :=
                if command = "relay" then "Linking room: " ++ command
                else "Command not found: " ++ command
              some [SendEvent.commandSend room.roomId content]
            else
              match mapGet room.roomId two_way_map with
              | none => none
              | some rx_room =>
                match rx_room.state with
                | RoomState.joined =>
                  some [SendEvent.relaySend rx_room.roomId (name ++ ": " ++ msg_body)]
                | _ => some []
          else some []
      | MessageType.other => some []
    | _ => some []

/-- One entry of a directory response chunk: room id and optional name. -/
structure PublicRoomsChunk where
  room_id : String
  name : Option String
deriving DecidableEq, Repr

/-- A `get_public_rooms_filtered` response: the first page of matches and
the pagination token signalling further pages. -/
structure Response where
  chunk : List PublicRoomsChunk
  next_batch : Option String
deriving DecidableEq, Repr

/-- The loop body of `get_all_tor_rooms` over `response.chunk`:
`public_rooms_chunk.name.unwrap()` panics on an absent name. -/
def collectTorRooms : List PublicRoomsChunk → Option (List (String × String))
  | [] => some []
  | c :: rest =>
    match c.name with
    | none => none
    | some n =>
      match collectTorRooms rest with
      | none => none
      | some ps => some ((c.room_id, n) :: ps)

/-- `get_all_tor_rooms`: query the directory with the fixed filter
string and collect (room id, name) pairs. `search` stands for
`client.public_rooms_filtered`. -/
def get_all_tor_rooms (search : String → Response) : Option (List (String × String)) :=
  collectTorRooms (search "(Tor)").chunk

/-- Rust `str::rsplit_once(c)` on the character list: split at the LAST
occurrence of `c`, `none` when `c` does not occur. -/
def rsplitOnceCharList (c : Char) : List Char → Option (List Char × List Char)
  | [] => none
  | x :: xs =>
    match rsplitOnceCharList c xs with
    | some (a, b) => some (x :: a, b)
    | none => if x = c then some ([], xs) else none

/-- `room_name.rsplit_once(' ')`. -/
def rsplitOnceSpace (s : String) : Option (String × String) :=
  match rsplitOnceCharList ' ' s.data with
  | none => none
  | some (a, b) => some (⟨a⟩, ⟨b⟩)

/-- The inner loop of `get_room_id_pairs` over the counterpart response
chunk: unwrap each name (panic on `none`), skip entries whose name is not
exactly the derived clearnet name, push a pair for exact matches. -/
def matchChunks (room_id clearnet_name : String) :
    List PublicRoomsChunk → Option (List (String × String))
  | [] => some []
  | c :: rest =>
    match c.name with
    | none => none
    | some n =>
      match matchChunks room_id clearnet_name rest with
      | none => none
      | some ps =>
        if n ≠ clearnet_name then some ps
        else some ((room_id, c.room_id) :: ps)

/-- The warning line printed when the counterpart query is ambiguous;
modelled by the searched-for clearnet name it mentions. -/
def tooManyWarn (clearnet_name : String) : String :=
  clearnet_name

/-- `get_room_id_pairs`: for each tagged room, derive the clearnet name by
splitting off the trailing token, query the directory for it, warn when the
response has more than 2 entries or a further page, and collect the pairs
whose entry name matches the clearnet name exactly. Returns the warnings
printed and the pair list, or `none` on panic (`rsplit_once(..).unwrap()` or
`name.unwrap()`). -/
def get_room_id_pairs (search : String → Response) :
    List (String × String) → Option (List String × List (String × String))
  | [] => some ([], [])
  | (room_id, room_name) :: rest =>
    match rsplitOnceSpace room_name with
    | none => none
    | some (clearnet_name, _) =>
      let response := search clearnet_name
      let warns :=
        if response.next_batch.isSome || decide (response.chunk.length > 2)
        then [tooManyWarn clearnet_name] else []
      match matchChunks room_id clearnet_name response.chunk with
      | none => none
      | some ps =>
        match get_room_id_pairs search rest with
        | none => none
        | some (ws, pairs) => some (warns ++ ws, ps ++ pairs)

/-- The loop body of `get_two_way_map_from_pairs`: resolve both ids through
`client.get_room` (`getRoom`; unwrap panics on `none`) and insert both
directions, tor id first. -/
def buildTwoWayMap (getRoom : String → Option Room) :
    List (String × String) → List (String × Room) → Option (List (String × Room))
  | [], m => some m
  | (tor_room_id, clearnet_room_id) :: rest, m =>
    match getRoom tor_room_id, getRoom clearnet_room_id with
    | some tor_room, some clearnet_room =>
      buildTwoWayMap getRoom rest
        (mapInsert clearnet_room_id tor_room (mapInsert tor_room_id clearnet_room m))
    | _, _ => none

/-- `get_two_way_map_from_pairs`, starting from the empty map. -/
def get_two_way_map_from_pairs (getRoom : String → Option Room)
    (room_id_pairs : List (String × String)) : Option (List (String × Room)) :=
  buildTwoWayMap getRoom room_id_pairs []

/-- All room ids occurring in a pair list, in order. -/
def pairIds : List (String × String) → List String
  | [] => []
  | p :: rest => p.1 :: p.2 :: pairIds rest

/-- Log lines of the invite handler: the per-attempt failure line (with the
delay it announces), the give-up line, and the success line printed after
the loop. -/
inductive LogEvent
  | failedRetrying (delay : Nat)
  | cantJoin
  | success
deriving DecidableEq, Repr

/-- Whether the autojoin `while let` loop is still running, gave up after
the backoff cap, or exited because `accept_invitation` succeeded. -/
inductive LoopStatus
  | running
  | abandoned
  | joinedRoom
deriving DecidableEq, Repr

/-- The observable state of the autojoin retry loop: the current `delay`
variable, the number of `accept_invitation` calls made so far, the sleeps
performed (in order, in seconds), the log lines emitted, and the status. -/
structure JoinLoopState where
  delay : Nat
  attempts : Nat
  sleeps : List Nat
  logs : List LogEvent
  status : LoopStatus
deriving DecidableEq, Repr

/-- The state before the loop: `let mut delay = 2;`. -/
def initJoinState : JoinLoopState :=
  { delay := 2, attempts := 0, sleeps := [], logs := [], status := LoopStatus.running }

/-- One iteration of `while let Err(err) = room.accept_invitation()`.
`fails n` tells whether the n-th call (0-based) returns `Err`. On failure:
log, sleep `delay`, double `delay`, and break with the give-up line once
the doubled delay exceeds 3600. On success the loop exits. Non-running
states are absorbing. -/
def joinStep (fails : Nat → Bool) (s : JoinLoopState) : JoinLoopState :=
  match s.status with
  | LoopStatus.running =>
    if fails s.attempts then
      let s1 : JoinLoopState :=
        { delay := s.delay * 2
          attempts := s.attempts + 1
          sleeps := s.sleeps ++ [s.delay]
          logs := s.logs ++ [LogEvent.failedRetrying s.delay]
          status := LoopStatus.running }
      if s.delay * 2 > 3600 then
        { s1 with status := LoopStatus.abandoned, logs := s1.logs ++ [LogEvent.cantJoin] }
      else s1
    else { s with attempts := s.attempts + 1, status := LoopStatus.joinedRoom }
  | _ => s

/-- The loop state after `n` iterations from the initial state. -/
def runJoinLoop (fails : Nat → Bool) : Nat → JoinLoopState
  | 0 => initJoinState
  | n + 1 => joinStep fails (runJoinLoop fails n)

/-- The persistently-failing invite: every `accept_invitation` call errors. -/
def persistFail : Nat → Bool := fun _ => true

/-- The full log of the `Room::Invited` branch of `on_stripped_state_member`
after `fuel` loop iterations: once the loop has exited (by success or by
give-up), the unconditional `Successfully joined room` line is appended;
`none` while the loop is still running. -/
def autojoinLogs (fails : Nat → Bool) (fuel : Nat) : Option (List LogEvent) :=
  let s := runJoinLoop fails fuel
  match s.status with
  | LoopStatus.running => none
  | _ => some (s.logs ++ [LogEvent.success])

/-- A fixed ambiguous-counterpart directory: the query returns three rooms,
one of whose names matches the stripped name `Foo` exactly. -/
def ambiguousSearch : String → Response := fun _ =>
  { chunk := [{ room_id := "!clear1:example.org", name := some "Foo" },
              { room_id := "!clear2:example.org", name := some "Bar" },
              { room_id := "!clear3:example.org", name := some "Foo Bar" }]
    next_batch := none }

/-- A directory whose single tag-matched entry has no display name. -/
def badSearch : String → Response := fun _ =>
  { chunk := [{ room_id := "!anon:example.org", name := none }], next_batch := none }

/-- A client whose local room lookup resolves every id to a joined room
with that id. -/
def exampleGetRoom : String → Option Room :=
  fun i => some { roomId := i, state := RoomState.joined }

/-- The log lines of the fully abandoned autojoin run. -/
def abandonedLog : List LogEvent :=
  [LogEvent.failedRetrying 2, LogEvent.failedRetrying 4,
   LogEvent.failedRetrying 8, LogEvent.failedRetrying 16,
   LogEvent.failedRetrying 32, LogEvent.failedRetrying 64,
   LogEvent.failedRetrying 128, LogEvent.failedRetrying 256,
   LogEvent.failedRetrying 512, LogEvent.failedRetrying 1024,
   LogEvent.failedRetrying 2048, LogEvent.cantJoin, LogEvent.success]

/-- Once the loop status leaves `running` it never changes again. -/
theorem joinStep_absorb (fails : Nat → Bool) (s : JoinLoopState)
    (h : s.status ≠ LoopStatus.running) : joinStep fails s = s := by
  unfold joinStep
  cases hs : s.status with
  | running => exact absurd hs h
  | abandoned => rfl
  | joinedRoom => rfl

/-- C8: a message whose origin room is not a key of the routing table is
ignored: the handler returns with no outbound send and no panic. -/
theorem unlinked_room_ignored (getMember : String → Option Member)
    (event : MessageEvent) (room : Room) (two_way_map : List (String × Room))
    (username : String) (hc : mapContains room.roomId two_way_map = false) :
    on_room_message getMember event room two_way_map username = some [] := by
  unfold on_room_message
  rw [hc]
  rfl

/-- Witness for `unlinked_room_ignored` at a concrete unlinked room. -/
theorem unlinked_room_ignored_witness :
    on_room_message (fun _ => some { displayName := some "Alice", userId := "@alice:x" })
      { msgtype := MessageType.text "hello", sender := "@alice:x" }
      { roomId := "R9", state := RoomState.joined }
      [("R1", { roomId := "R2", state := RoomState.joined })] "relaybot" = some [] :=
  unlinked_room_ignored _ _ _ _ _ (by decide)

/-- C2: when the sender resolves to a member whose display name (with the
raw user id as fallback) equals the configured bot username, the handler
sends nothing at all: no relay and no command reply. -/
theorem no_self_send (getMember : String → Option Member) (event : MessageEvent)
    (room : Room) (two_way_map : List (String × Room)) (username : String)
    (member : Member) (hm : getMember event.sender = some member)
    (hname : resolvedName member = username) :
    on_room_message getMember event room two_way_map username = some [] := by
  unfold on_room_message
  cases hc : mapContains room.roomId two_way_map with
  | false => rfl
  | true =>
    simp only [Bool.true_eq_false, if_false]
    cases hs : room.state with
    | joined =>
      cases ht : event.msgtype with
      | text body =>
        rw [hm]
        simp only [hname, ne_eq, not_true_eq_false, if_false]
      | other => rfl
    | invited => rfl
    | left => rfl

/-- Witness for `no_self_send`: the bot sees its own relayed message. -/
theorem no_self_send_witness :
    on_room_message (fun _ => some { displayName := some "relaybot", userId := "@relay:x" })
      { msgtype := MessageType.text "Alice: hello", sender := "@relay:x" }
      { roomId := "R2", state := RoomState.joined }
      [("R2", { roomId := "R1", state := RoomState.joined })] "relaybot" = some [] :=
  no_self_send _ _ _ _ _ { displayName := some "relaybot", userId := "@relay:x" }
    rfl (by decide)

/-- C5: under persistently failing invite acceptance the retry loop sleeps
2, 4, 8, ..., 2048 seconds, makes exactly 11 join attempts, and stops in
the abandoned state once the doubled delay (4096) exceeds 3600; every
further iteration leaves the state unchanged, so the loop terminates. -/
theorem backoff_bound :
    (runJoinLoop persistFail 11).sleeps =
        [2, 4, 8, 16, 32, 64, 128, 256, 512, 1024, 2048] ∧
    (runJoinLoop persistFail 11).attempts = 11 ∧
    (runJoinLoop persistFail 11).status = LoopStatus.abandoned ∧
    (runJoinLoop persistFail 11).delay = 4096 ∧
    ∀ n, runJoinLoop persistFail (11 + n) = runJoinLoop persistFail 11 := by
  refine ⟨by decide, by decide, by decide, by decide, ?_⟩
  intro n
  induction n with
  | zero => rfl
  | succ n ih =>
    have hstep : runJoinLoop persistFail (11 + (n + 1)) =
        joinStep persistFail (runJoinLoop persistFail (11 + n)) := rfl
    rw [hstep, ih]
    exact joinStep_absorb persistFail _ (by decide)

/-- C9: in the abandoned run the invite handler emits the give-up line and
then, unconditionally after the loop, the success line for the same room:
the log ends `cantJoin, success`. -/
theorem abandoned_join_also_logs_success :
    autojoinLogs persistFail 11 = some abandonedLog ∧
    LogEvent.cantJoin ∈ abandonedLog ∧
    abandonedLog.getLast? = some LogEvent.success := by
  refine ⟨by decide, by decide, by decide⟩

/-- C3 counterexample: all premises of the claim hold — the origin room R1
is a key of the routing table, the sender resolves to Alice (not the bot),
the body is plain text without the command prefix — yet the handler sends
nothing, because the counterpart handle stored for R1 is in the Invited
variant, and the code only sends when `rx_room` matches `Room::Joined`. -/
theorem relay_skipped_counterpart_not_joined :
    mapContains "R1" [("R1", { roomId := "R2", state := RoomState.invited })] = true ∧
    resolvedName { displayName := some "Alice", userId := "@alice:x" } ≠ "relaybot" ∧
    startsWithBang "hello" = false ∧
    on_room_message (fun _ => some { displayName := some "Alice", userId := "@alice:x" })
      { msgtype := MessageType.text "hello", sender := "@alice:x" }
      { roomId := "R1", state := RoomState.joined }
      [("R1", { roomId := "R2", state := RoomState.invited })] "relaybot" = some [] := by
  exact ⟨by decide, by decide, by decide, by decide⟩

/-- C3 (amended): for a plain-text message from a routing-table room whose
handle is Joined, with a resolvable sender distinct from the bot username,
a body without the command prefix, and a counterpart handle that is also
Joined, the handler performs exactly one outbound send: the relay into the
counterpart room with body sender-name, colon, space, original body. -/
theorem relay_exactly_one (getMember : String → Option Member) (event : MessageEvent)
    (room : Room) (two_way_map : List (String × Room)) (username : String)
    (member : Member) (rx_room : Room) (body : String)
    (hj : room.state = RoomState.joined)
    (ht : event.msgtype = MessageType.text body)
    (hm : getMember event.sender = some member)
    (hname : resolvedName member ≠ username)
    (hbang : startsWithBang body = false)
    (hget : mapGet room.roomId two_way_map = some rx_room)
    (hrx : rx_room.state = RoomState.joined) :
    on_room_message getMember event room two_way_map username =
      some [SendEvent.relaySend rx_room.roomId (resolvedName member ++ ": " ++ body)] := by
  have hc : mapContains room.roomId two_way_map = true := by
    unfold mapContains
    rw [hget]
    rfl
  simp [on_room_message, hc, hj, ht, hm, hget, hrx, hbang, hname]

/-- Witness for `relay_exactly_one`: Alice says hello in R1, the bot sends
one message into R2. -/
theorem relay_exactly_one_witness :
    on_room_message (fun _ => some { displayName := some "Alice", userId := "@alice:x" })
      { msgtype := MessageType.text "hello", sender := "@alice:x" }
      { roomId := "R1", state := RoomState.joined }
      [("R1", { roomId := "R2", state := RoomState.joined })] "relaybot" =
      some [SendEvent.relaySend "R2"
        (resolvedName { displayName := some "Alice", userId := "@alice:x" } ++ ": " ++ "hello")] :=
  relay_exactly_one (fun _ => some { displayName := some "Alice", userId := "@alice:x" })
    { msgtype := MessageType.text "hello", sender := "@alice:x" }
    { roomId := "R1", state := RoomState.joined }
    [("R1", { roomId := "R2", state := RoomState.joined })] "relaybot"
    { displayName := some "Alice", userId := "@alice:x" }
    { roomId := "R2", state := RoomState.joined } "hello"
    rfl rfl rfl (by decide) (by decide) (by decide) rfl

/-- C6: whenever the text body starts with the command prefix, every send
the handler performs is a command reply into the origin room — the plain
relay path never fires, whatever the routing table, sender, or room states
are. -/
theorem command_short_circuit (getMember : String → Option Member) (event : MessageEvent)
    (room : Room) (two_way_map : List (String × Room)) (username : String)
    (body : String) (out : List SendEvent)
    (ht : event.msgtype = MessageType.text body)
    (hbang : startsWithBang body = true)
    (hout : on_room_message getMember event room two_way_map username = some out) :
    ∀ s ∈ out, ∃ c, s = SendEvent.commandSend room.roomId c := by
  intro s hs
  by_cases hc : mapContains room.roomId two_way_map = false
  · simp [on_room_message, hc] at hout
    subst hout
    simp at hs
  · cases hstate : room.state with
    | joined =>
      cases hmem : getMember event.sender with
      | none => simp [on_room_message, hc, hstate, ht, hmem] at hout
      | some member =>
        by_cases hn : resolvedName member = username
        · simp [on_room_message, hc, hstate, ht, hmem, hn] at hout
          subst hout
          simp at hs
        · simp [on_room_message, hc, hstate, ht, hmem, hn, hbang] at hout
          subst hout
          simp at hs
          exact ⟨_, hs⟩
    | invited =>
      simp [on_room_message, hc, hstate] at hout
      subst hout
      simp at hs
    | left =>
      simp [on_room_message, hc, hstate] at hout
      subst hout
      simp at hs

/-- Witness for `command_short_circuit`: an unrecognized command in a
linked room yields only the command reply in the origin room. -/
theorem command_short_circuit_witness :
    ∃ c, SendEvent.commandSend "R1" "Command not found: ping" =
      SendEvent.commandSend "R1" c :=
  command_short_circuit (fun _ => some { displayName := some "Alice", userId := "@alice:x" })
    { msgtype := MessageType.text "!ping", sender := "@alice:x" }
    { roomId := "R1", state := RoomState.joined }
    [("R1", { roomId := "R2", state := RoomState.joined })] "relaybot" "!ping"
    [SendEvent.commandSend "R1" "Command not found: ping"]
    rfl (by decide) (by decide)
    (SendEvent.commandSend "R1" "Command not found: ping") (by decide)

/-- C7: an unrecognized command (anything other than `relay` after the
bang) gets exactly one reply, into the origin room, whose body is the
fixed prefix followed by the body with the leading bang stripped; nothing
is relayed to the counterpart. -/
theorem command_not_found_reply (getMember : String → Option Member) (event : MessageEvent)
    (room : Room) (two_way_map : List (String × Room)) (username : String)
    (member : Member) (body : String)
    (hc : mapContains room.roomId two_way_map = true)
    (hj : room.state = RoomState.joined)
    (ht : event.msgtype = MessageType.text body)
    (hm : getMember event.sender = some member)
    (hname : resolvedName member ≠ username)
    (hbang : startsWithBang body = true)
    (hcmd : dropBang body ≠ "relay") :
    on_room_message getMember event room two_way_map username =
      some [SendEvent.commandSend room.roomId ("Command not found: " ++ dropBang body)] := by
  simp [on_room_message, hc, hj, ht, hm, hname, hbang, hcmd]

/-- Witness for `command_not_found_reply` on the unrecognized command
`!ping`. -/
theorem command_not_found_reply_witness :
    on_room_message (fun _ => some { displayName := some "Alice", userId := "@alice:x" })
      { msgtype := MessageType.text "!ping", sender := "@alice:x" }
      { roomId := "R1", state := RoomState.joined }
      [("R1", { roomId := "R2", state := RoomState.joined })] "relaybot" =
      some [SendEvent.commandSend "R1" ("Command not found: " ++ dropBang "!ping")] :=
  command_not_found_reply (fun _ => some { displayName := some "Alice", userId := "@alice:x" })
    { msgtype := MessageType.text "!ping", sender := "@alice:x" }
    { roomId := "R1", state := RoomState.joined }
    [("R1", { roomId := "R2", state := RoomState.joined })] "relaybot"
    { displayName := some "Alice", userId := "@alice:x" } "!ping"
    (by decide) rfl rfl rfl (by decide) (by decide) (by decide)

/-- C1: on the ambiguous counterpart query (three results for the stripped
name `Foo`), `get_room_id_pairs` logs the too-many-rooms warning but still
adds the pair for the exactly matching entry — the room is not skipped. -/
theorem ambiguous_match_still_paired :
    get_room_id_pairs ambiguousSearch [("!tor:example.org", "Foo (Tor)")] =
      some ([tooManyWarn "Foo"], [("!tor:example.org", "!clear1:example.org")]) := by
  decide

/-- Inserting a key and reading it back yields the inserted value. -/
theorem mapGet_insert_self (k : String) (v : Room) (m : List (String × Room)) :
    mapGet k (mapInsert k v m) = some v := by
  induction m with
  | nil => simp [mapInsert, mapGet]
  | cons kv rest ih =>
    obtain ⟨k1, v1⟩ := kv
    by_cases h : k1 = k
    · simp [mapInsert, h, mapGet]
    · simp [mapInsert, h, mapGet, ih]

/-- Inserting a different key leaves a lookup unchanged. -/
theorem mapGet_insert_ne (k k1 : String) (v : Room) (m : List (String × Room))
    (h : k1 ≠ k) : mapGet k (mapInsert k1 v m) = mapGet k m := by
  induction m with
  | nil => simp [mapInsert, mapGet, h]
  | cons kv rest ih =>
    obtain ⟨k2, v2⟩ := kv
    by_cases h2 : k2 = k1
    · subst h2
      simp [mapInsert, mapGet, h, ih]
    · simp [mapInsert, h2, mapGet, ih]

/-- When every id of the pair list resolves, the builder returns a map. -/
theorem buildTwoWayMap_isSome (getRoom : String → Option Room)
    (pairs : List (String × String)) :
    ∀ (m : List (String × Room)),
    (∀ p ∈ pairs, (getRoom p.1).isSome ∧ (getRoom p.2).isSome) →
    ∃ m2, buildTwoWayMap getRoom pairs m = some m2 := by
  induction pairs with
  | nil => exact fun m _ => ⟨m, rfl⟩
  | cons q rest ih =>
    intro m hres
    obtain ⟨a, b⟩ := q
    have ha := (hres (a, b) (List.mem_cons_self _ _)).1
    have hb := (hres (a, b) (List.mem_cons_self _ _)).2
    cases hga : getRoom a with
    | none => rw [hga] at ha; cases ha
    | some ra =>
      cases hgb : getRoom b with
      | none => rw [hgb] at hb; cases hb
      | some rb =>
        have hres2 : ∀ p ∈ rest, (getRoom p.1).isSome ∧ (getRoom p.2).isSome :=
          fun p hp => hres p (List.mem_cons_of_mem _ hp)
        obtain ⟨m2, hm2⟩ := ih (mapInsert b ra (mapInsert a rb m)) hres2
        exact ⟨m2, by simp [buildTwoWayMap, hga, hgb, hm2]⟩

/-- Keys that occur in none of the remaining pairs keep their binding while
the builder processes those pairs. -/
theorem buildTwoWayMap_preserves (getRoom : String → Option Room)
    (pairs : List (String × String)) :
    ∀ (m m2 : List (String × Room)) (k : String),
    buildTwoWayMap getRoom pairs m = some m2 →
    k ∉ pairIds pairs → mapGet k m2 = mapGet k m := by
  induction pairs with
  | nil =>
    intro m m2 k hb _
    cases hb
    rfl
  | cons q rest ih =>
    intro m m2 k hb hk
    obtain ⟨a, b⟩ := q
    simp [pairIds] at hk
    obtain ⟨hka, hkb, hkr⟩ := hk
    cases hga : getRoom a with
    | none => simp [buildTwoWayMap, hga] at hb
    | some ra =>
      cases hgb : getRoom b with
      | none => simp [buildTwoWayMap, hga, hgb] at hb
      | some rb =>
        rw [buildTwoWayMap] at hb
        rw [hga, hgb] at hb
        have hpres := ih _ _ k hb hkr
        rw [hpres]
        rw [mapGet_insert_ne k b ra _ (fun he => hkb he.symm)]
        rw [mapGet_insert_ne k a rb _ (fun he => hka he.symm)]

/-- Each processed pair ends up looked-up symmetrically, provided the pair
ids are pairwise distinct and every id resolves. -/
theorem buildTwoWayMap_sym (getRoom : String → Option Room)
    (pairs : List (String × String)) :
    ∀ (m m2 : List (String × Room)), (pairIds pairs).Nodup →
    (∀ p ∈ pairs, (getRoom p.1).isSome ∧ (getRoom p.2).isSome) →
    buildTwoWayMap getRoom pairs m = some m2 →
    ∀ p ∈ pairs, mapGet p.1 m2 = getRoom p.2 ∧ mapGet p.2 m2 = getRoom p.1 := by
  induction pairs with
  | nil => intro m m2 _ _ _ p hp; simp at hp
  | cons q rest ih =>
    intro m m2 hnd hres hbuild p hp
    obtain ⟨a, b⟩ := q
    have ha := (hres (a, b) (List.mem_cons_self _ _)).1
    have hb := (hres (a, b) (List.mem_cons_self _ _)).2
    cases hga : getRoom a with
    | none => rw [hga] at ha; cases ha
    | some ra =>
      cases hgb : getRoom b with
      | none => rw [hgb] at hb; cases hb
      | some rb =>
        rw [buildTwoWayMap] at hbuild
        rw [hga, hgb] at hbuild
        have hnd2 : (a :: b :: pairIds rest).Nodup := by simpa [pairIds] using hnd
        have hab : a ≠ b := by
          intro he
          exact (List.nodup_cons.mp hnd2).1 (he ▸ List.mem_cons_self b (pairIds rest))
        have har : a ∉ pairIds rest :=
          fun hm => (List.nodup_cons.mp hnd2).1 (List.mem_cons_of_mem b hm)
        have hbr : b ∉ pairIds rest :=
          (List.nodup_cons.mp (List.nodup_cons.mp hnd2).2).1
        rcases List.mem_cons.mp hp with rfl | hp2
        · constructor
          · have h1 := buildTwoWayMap_preserves getRoom rest _ _ a hbuild har
            rw [h1]
            rw [mapGet_insert_ne a b ra _ (fun he => hab he.symm)]
            rw [mapGet_insert_self a rb m]
            rw [hgb]
          · have h2 := buildTwoWayMap_preserves getRoom rest _ _ b hbuild hbr
            rw [h2]
            rw [mapGet_insert_self b ra]
            rw [hga]
        · have hndr : (pairIds rest).Nodup :=
            (List.nodup_cons.mp (List.nodup_cons.mp hnd2).2).2
          have hresr : ∀ p ∈ rest, (getRoom p.1).isSome ∧ (getRoom p.2).isSome :=
            fun p hpr => hres p (List.mem_cons_of_mem _ hpr)
          exact ih _ _ hndr hresr hbuild p hp2

/-- C4: with pairwise distinct pair ids (the RoomPair invariant) and a
client that resolves every id, the routing table is built and is
symmetric: each pair member maps to the handle the client returned for
its counterpart. -/
theorem routing_table_symmetric (getRoom : String → Option Room)
    (pairs : List (String × String))
    (hnd : (pairIds pairs).Nodup)
    (hres : ∀ p ∈ pairs, (getRoom p.1).isSome ∧ (getRoom p.2).isSome) :
    ∃ m, get_two_way_map_from_pairs getRoom pairs = some m ∧
      ∀ p ∈ pairs, mapGet p.1 m = getRoom p.2 ∧ mapGet p.2 m = getRoom p.1 := by
  obtain ⟨m, hm⟩ := buildTwoWayMap_isSome getRoom pairs [] hres
  exact ⟨m, hm, buildTwoWayMap_sym getRoom pairs [] m hnd hres hm⟩

/-- Witness for `routing_table_symmetric` on the single pair A, B. -/
theorem routing_table_symmetric_witness :
    ∃ m, get_two_way_map_from_pairs exampleGetRoom [("A", "B")] = some m ∧
      ∀ p ∈ [("A", "B")], mapGet p.1 m = exampleGetRoom p.2 ∧
        mapGet p.2 m = exampleGetRoom p.1 :=
  routing_table_symmetric exampleGetRoom [("A", "B")] (by decide) (by decide)

/-- A chunk containing an entry with an absent name makes the tor-room
collection panic. -/
theorem collectTorRooms_none (l : List PublicRoomsChunk)
    (h : ∃ c ∈ l, c.name = none) : collectTorRooms l = none := by
  induction l with
  | nil => simp at h
  | cons c rest ih =>
    obtain ⟨d, hd, hdn⟩ := h
    cases hmem : c.name with
    | none => simp [collectTorRooms, hmem]
    | some n =>
      have hdr : d ∈ rest := by
        rcases List.mem_cons.mp hd with rfl | hd2
        · rw [hmem] at hdn; cases hdn
        · exact hd2
      simp [collectTorRooms, hmem, ih ⟨d, hdr, hdn⟩]

/-- `rsplit_once` finds nothing when the character does not occur. -/
theorem rsplitOnceCharList_not_mem (c : Char) (l : List Char) (h : c ∉ l) :
    rsplitOnceCharList c l = none := by
  induction l with
  | nil => rfl
  | cons x xs ih =>
    have hx : ¬ x = c := by
      intro he
      exact h (by rw [he]; exact List.mem_cons_self c xs)
    have hxs : c ∉ xs := fun hm => h (List.mem_cons_of_mem x hm)
    simp [rsplitOnceCharList, ih hxs, hx]

/-- A name without a space cannot be split. -/
theorem rsplitOnceSpace_no_space (s : String) (h : ' ' ∉ s.data) :
    rsplitOnceSpace s = none := by
  unfold rsplitOnceSpace
  rw [rsplitOnceCharList_not_mem ' ' s.data h]

/-- A tagged room whose name has no space makes the pairing loop panic,
wherever it sits in the list. -/
theorem get_room_id_pairs_panics (search : String → Response)
    (rooms : List (String × String))
    (h : ∃ p ∈ rooms, ' ' ∉ p.2.data) :
    get_room_id_pairs search rooms = none := by
  induction rooms with
  | nil => simp at h
  | cons q rest ih =>
    obtain ⟨p, hp, hpn⟩ := h
    obtain ⟨room_id, room_name⟩ := q
    rcases List.mem_cons.mp hp with rfl | hp2
    · have hs := rsplitOnceSpace_no_space room_name hpn
      simp [get_room_id_pairs, hs]
    · cases hsp : rsplitOnceSpace room_name with
      | none => simp [get_room_id_pairs, hsp]
      | some pr =>
        obtain ⟨cn, tail_name⟩ := pr
        cases hmc : matchChunks room_id cn (search cn).chunk with
        | none => simp [get_room_id_pairs, hsp, hmc]
        | some ps => simp [get_room_id_pairs, hsp, hmc, ih ⟨p, hp2, hpn⟩]

/-- C10: discovery is partial at its public interface — a tag-matched
directory entry with an absent display name makes `get_all_tor_rooms`
panic, and a tag-matched entry whose display name contains no space makes
`get_room_id_pairs` panic; neither room is skipped and no error value is
returned. -/
theorem discovery_panics_on_bad_names (search : String → Response)
    (rooms : List (String × String)) :
    ((∃ c ∈ (search "(Tor)").chunk, c.name = none) → get_all_tor_rooms search = none) ∧
    ((∃ p ∈ rooms, ' ' ∉ p.2.data) → get_room_id_pairs search rooms = none) := by
  constructor
  · intro h
    exact collectTorRooms_none _ h
  · intro h
    exact get_room_id_pairs_panics search rooms h

/-- Witness for `discovery_panics_on_bad_names`: a nameless entry and a
space-free name both crash discovery. -/
theorem discovery_panics_on_bad_names_witness :
    get_all_tor_rooms badSearch = none ∧
    get_room_id_pairs badSearch [("!tor:example.org", "FooTor")] = none :=
  ⟨(discovery_panics_on_bad_names badSearch [("!tor:example.org", "FooTor")]).1
      ⟨{ room_id := "!anon:example.org", name := none }, by decide, rfl⟩,
   (discovery_panics_on_bad_names badSearch [("!tor:example.org", "FooTor")]).2
      ⟨("!tor:example.org", "FooTor"), by decide, by decide⟩⟩

end RelayBot
